import Mathlib

/-!
Verification of the tiling/stitching engine of the
`image-dataset-converter-imgaug` repository.

The Lean definitions below are shallow embeddings of the Python source:

* `generate_grid`    — grid mode of `generate` in `tool/generate_regions.py`
* `parse_regions`    — `filter/_sub_images_utils.py` (`parse_regions`)
* `fit_located_object`, `overlap_ratio`, `det_tile_objects`,
  `process_image_det` — Region Extractor (`process_image` ff.)
* `transfer_region_det`, `transfer_region_seg`, `crop_layer`
  — Template/Reassembler (`transfer_region`)
* `prune_annotations` — Annotation Pruner
* `build_parallel`, `build_merge_sets`, `merge_polygons` — Polygon Merger
* `sub_image_size_utils` / `sub_image_size_subimages` — pixel-crop windows of
  the two extractor implementations.

Python integers are mapped to `ℤ` (or `ℕ` where the source validates
non-negativity), floats appearing in the polygon merger to `ℚ`, and numpy
layers to a dimensions-plus-pixel-function record.  External collaborators
(shapely geometry, `wai.common`'s `overlap_ratio`, the `idc.api` geometry
adapter) are not part of the repository; where a claim needs them they are
modelled from the specification and marked as such in their doc comments.
-/

/- Core marks `Rat.add`, `Rat.mul`, `Rat.sub` and `Rat.inv` irreducible,
which blocks `decide` from evaluating the exact rational arithmetic of the
polygon merger; restore the default reducibility so concrete computations
reduce in the kernel. -/
set_option allowUnsafeReducibility true in
attribute [semireducible] Rat.add Rat.mul Rat.sub Rat.inv

/-! ## Region generator (`tool/generate_regions.py`) -/

/-- The `Region` dataclass of `generate_regions.py`: an `x, y, w, h` pixel
rectangle.  The tool validates `width ≥ 1`/`height ≥ 1` and all grid
parameters are non-negative pixel counts, so the embedding uses `ℕ`. -/
structure Region where
  x : ℕ
  y : ℕ
  w : ℕ
  h : ℕ
  deriving DecidableEq, Repr

/-- Grid mode of `generate` (`generate_regions.py`, lines 116–136): the
margin-adjusted section is divided into `num_rows × num_cols` cells using
floor division; the last row/column instead absorbs the remaining pixels
unless ` fixed_size`; every non-last row/column grows by the overlap.
Subtraction is `ℕ`-truncated; the source validates `width, height ≥ 1` and
in every use in this file the margins fit inside the image, where Python's
arithmetic agrees with `ℕ` arithmetic. -/
def generate_grid (width height num_rows num_cols : ℕ) ( fixed_size : Bool)
    (overlap_right overlap_bottom : ℕ)
    (margin_left margin_top margin_right margin_bottom : ℕ) : List Region :=
  let section_width := width - margin_left - margin_right
  let section_height := height - margin_top - margin_bottom
  (List.range num_rows).flatMap (fun row =>
    let y := row * section_height / num_rows + margin_top
    let h0 := if row = num_rows - 1 ∧ fixed_size = false then section_height - y
              else section_height / num_rows
    let h := if row < num_rows - 1 then h0 + overlap_bottom else h0
    (List.range num_cols).map (fun col =>
      let x := col * section_width / num_cols + margin_left
      let w0 := if col = num_cols - 1 ∧ fixed_size = false then section_width - x
                else section_width / num_cols
      let w := if col < num_cols - 1 then w0 + overlap_right else w0
      { x := x, y := y, w := w, h := h }))

/-- Pixel `(px, py)` lies in the region (regions are `[x, x+w) × [y, y+h)`
boxes of whole pixels). -/
def Region.contains (r : Region) (px py : ℕ) : Prop :=
  r.x ≤ px ∧ px < r.x + r.w ∧ r.y ≤ py ∧ py < r.y + r.h

instance (r : Region) (px py : ℕ) : Decidable (r.contains px py) := by
  unfold Region.contains; infer_instance

/-! ## Data model of the filter utilities (`filter/_sub_images_utils.py`) -/

/-- A closed axis-aligned rectangle `[x0, x1] × [y0, y1]` of the planar
geometry.  `Modelled from the spec:` the Geometry Adapter (§4.2) lives in the
external `shapely`/`idc.api` libraries; this development models its
geometries restricted to axis-aligned rectangles, which is exact for every
geometry arising in the concrete inputs used below. -/
structure GRect where
  x0 : ℤ
  y0 : ℤ
  x1 : ℤ
  y1 : ℤ
  deriving DecidableEq, Repr

/-- The `wai.common` class `LocatedObject`: an `x, y, width, height` bbox with an
optional polygon (empty list = no polygon, cf. `has_polygon`) and the
metadata fields used by this engine (`label`, numeric `score`, and the
`region_index`/`region_xywh` traceability tags written by the extractor).
Python integers are embedded as `ℤ`. -/
structure LocObj where
  x : ℤ
  y : ℤ
  w : ℤ
  h : ℤ
  poly : List (ℤ × ℤ) := []
  label : String := ""
  score : Option ℚ := none
  region_index : Option ℤ := none
  region_xywh : Option (ℤ × ℤ × ℤ × ℤ) := none
  deriving DecidableEq, Repr

/-- Models `locatedobject_bbox_to_shapely`: the shapely rectangle of a bbox has
corners `(x, y) … (x+w-1, y+h-1)` (closed corner coordinates). -/
def LocObj.bbox_rect (o : LocObj) : GRect :=
  ⟨o.x, o.y, o.x + o.w - 1, o.y + o.h - 1⟩

/-- Bounding rectangle of a point list (`⟨0,0,0,0⟩` for the empty list,
which never occurs at use sites). -/
def poly_rect (ps : List (ℤ × ℤ)) : GRect :=
  match ps with
  | [] => ⟨0, 0, 0, 0⟩
  | p :: rest => rest.foldl
      (fun g q => ⟨min g.x0 q.1, min g.y0 q.2, max g.x1 q.1, max g.y1 q.2⟩)
      ⟨p.1, p.2, p.1, p.2⟩

/-- Models `locatedobject_polygon_to_shapely` (external `idc.api`): the polygon when
present, else the bbox.  `Modelled from the spec:` geometry restricted to
axis-aligned rectangles — a polygon is identified with its bounding
rectangle (exact for the rectangle polygons arising in this development). -/
def LocObj.geom_rect (o : LocObj) : GRect :=
  if o.poly.isEmpty then o.bbox_rect else poly_rect o.poly

/-- Rectangle intersection (shapely `intersection` of two axis-aligned
rectangles; empty when `x1 < x0` or `y1 < y0`). -/
def GRect.inter (a b : GRect) : GRect :=
  ⟨max a.x0 b.x0, max a.y0 b.y0, min a.x1 b.x1, min a.y1 b.y1⟩

/-- Embeds `fit_located_object` (`_sub_images_utils.py`, lines 126–189): the bbox of
the result is the bounds of `bbox ∩ region` shifted into region-local
coordinates (`width = maxx-minx+1`); the result inherits the annotation's
metadata, and when `index > -1` the `region_index`/`region_xywh` tags are
set.  The polygon of the result is the intersection of the annotation's
polygon (bbox when absent) with the region, in region-local coordinates —
here via the rectangle-restricted Geometry Adapter model, as the four
corners of the clipped rectangle.  The source raises on an empty bbox
intersection (`int()` of NaN bounds); all callers in this file invoke it on
overlapping rectangles only. -/
def fit_located_object (index : ℤ) (region ann : LocObj) : LocObj :=
  let bi := GRect.inter ann.bbox_rect region.bbox_rect
  let pi := GRect.inter ann.geom_rect region.bbox_rect
  { x := bi.x0 - region.x, y := bi.y0 - region.y,
    w := bi.x1 - bi.x0 + 1, h := bi.y1 - bi.y0 + 1,
    poly := [(pi.x0 - region.x, pi.y0 - region.y), (pi.x1 - region.x, pi.y0 - region.y),
             (pi.x1 - region.x, pi.y1 - region.y), (pi.x0 - region.x, pi.y1 - region.y)],
    label := ann.label, score := ann.score,
    region_index := if index > -1 then some index else ann.region_index,
    region_xywh := if index > -1 then some (region.x, region.y, region.w, region.h)
                   else ann.region_xywh }

/-- Modelled from the spec: `LocatedObject.overlap_ratio` lives in the
external `wai.common` library; §4.3 defines it as
`area(object ∩ region) / area(object)`.  Areas are pixel counts (`w*h` over
half-open pixel boxes); an empty intersection gives ratio `0`. -/
def overlap_ratio (region ann : LocObj) : ℚ :=
  let iw := min (region.x + region.w) (ann.x + ann.w) - max region.x ann.x
  let ih := min (region.y + region.h) (ann.y + ann.h) - max region.y ann.y
  if 0 < iw ∧ 0 < ih then ((iw * ih : ℤ) : ℚ) / ((ann.w * ann.h : ℤ) : ℚ) else 0

/-- The per-object inclusion test of the Detection branch of `process_image`
(`_sub_images_utils.py`, line 359): `((ratio > 0) and include_partial) or
(ratio >= 1)`. -/
def det_included (region ann : LocObj) ( include_partial : Bool) : Bool :=
  (decide (0 < overlap_ratio region ann) && include_partial)
    || decide (1 ≤ overlap_ratio region ann)

/-- The `new_objects` list built for one region by the Detection branch of
`process_image` (lines 355–360): each annotated object passing
`det_included` is fitted into the region (`fit_located_object` with the
region's index); a record without annotation (`has_annotation()` false)
contributes nothing. -/
def det_tile_objects (objs : Option (List LocObj)) (region_index : ℤ)
    (region : LocObj) ( include_partial : Bool) : List LocObj :=
  match objs with
  | none => []
  | some l => l.filterMap (fun ann =>
      if det_included region ann include_partial then
        some (fit_located_object region_index region ann)
      else none)

/-- Detection branch of `process_image` (lines 354–364), restricted to the
annotation content: one `(region, new_objects)` tuple is appended per region
unless `suppress_empty` holds and `new_objects` is empty. -/
def process_image_det (objs : Option (List LocObj)) (regions : List LocObj)
    ( suppress_empty include_partial : Bool) : List (LocObj × List LocObj) :=
  regions.enum.filterMap (fun p =>
    let new_objects := det_tile_objects objs (p.1 : ℤ) p.2 include_partial
    if ! suppress_empty || ! new_objects.isEmpty then some (p.2, new_objects)
    else none)

/-- The object-inclusion rule in the words of claim C6: ratio `≥ 1` always
included; ratio strictly between 0 and 1 included iff ` include_partial`;
ratio `0` never included. -/
def det_tile_objects_spec (objs : Option (List LocObj)) (region_index : ℤ)
    (region : LocObj) ( include_partial : Bool) : List LocObj :=
  match objs with
  | none => []
  | some l => l.filterMap (fun ann =>
      if 1 ≤ overlap_ratio region ann ∨
          (0 < overlap_ratio region ann ∧ overlap_ratio region ann < 1 ∧
            include_partial = true) then
        some (fit_located_object region_index region ann)
      else none)

/-- The tile-emission rule in the words of claim C6: a tile whose object
list is empty is omitted exactly when ` suppress_empty` is set. -/
def process_image_det_spec (objs : Option (List LocObj)) (regions : List LocObj)
    ( suppress_empty include_partial : Bool) : List (LocObj × List LocObj) :=
  regions.enum.filterMap (fun p =>
    let new_objects := det_tile_objects_spec objs (p.1 : ℤ) p.2 include_partial
    if suppress_empty = true ∧ new_objects = [] then none
    else some (p.2, new_objects))

/-! ## Region string parsing (`parse_regions`, `_sub_images_utils.py` 51–90) -/

/-- The three `region_sorting` modes. -/
inductive RegionSorting where
  | nosort
  | xy
  | yx
  deriving DecidableEq, Repr

/-- One region specification after comma-split and `int()` conversion: the
source runs `coords = [int(x) for x in region.split(",")]` and keeps the
region only when `len(coords) == 4`; any other component count contributes
nothing.  (A non-integer component would raise in `int()` before the length
test; region specifications are embedded post-conversion as `List ℤ`.) -/
def parse_region_coords (coords : List ℤ) : Option LocObj :=
  match coords with
  | [x, y, w, h] => some { x := x, y := y, w := w, h := h }
  | _ => none

/-- Sort key `"%06d %06d" % (obj.x, obj.y)`: for the non-negative
six-digit coordinates of practice, string comparison of the zero-padded key
is the lexicographic order on `(x, y)`. -/
def region_le_xy (a b : LocObj) : Bool :=
  decide (a.x < b.x) || (decide (a.x = b.x) && decide (a.y ≤ b.y))

/-- Sort key `"%06d %06d" % (obj.y, obj.x)`. -/
def region_le_yx (a b : LocObj) : Bool :=
  decide (a.y < b.y) || (decide (a.y = b.y) && decide (a.x ≤ b.x))

/-- Embeds `parse_regions` (`_sub_images_utils.py`, lines 51–90): parse each region
string, silently dropping any whose component count is not 4; stable-sort
by the requested key (`list.sort` is stable, as is `List.mergeSort`); return
the located objects together with their `(x0, y0, x1, y1)` tuples
(`x1 = x + w - 1`, inclusive corners). -/
def parse_regions (regions : List (List ℤ)) (sorting : RegionSorting) :
    List LocObj × List (ℤ × ℤ × ℤ × ℤ) :=
  let region_lobjs := regions.filterMap parse_region_coords
  let sorted := match sorting with
    | .nosort => region_lobjs
    | .xy => region_lobjs.mergeSort region_le_xy
    | .yx => region_lobjs.mergeSort region_le_yx
  (sorted, sorted.map (fun l => (l.x, l.y, l.x + l.w - 1, l.y + l.h - 1)))

/-! ## Segmentation layers, records, pruning, segmentation transfer -/

/-- A numpy `uint8` mask layer: dimensions plus a pixel function.  (Pixel
values are embedded as `ℕ`; nothing in the claims below depends on the
`uint8` range.) -/
structure Layer where
  w : ℕ
  h : ℕ
  pix : ℕ → ℕ → ℕ

/-- The source's emptiness test `np.unique(layer)`-has-only-`0`: true iff
the layer is non-degenerate (`np.unique` of a 0-sized array is empty, so a
0-sized layer is *not* flagged) and every pixel is 0. -/
def Layer.flagged_empty (l : Layer) : Bool :=
  decide (0 < l.w) && decide (0 < l.h) &&
    decide (∀ py, py < l.h → ∀ px, px < l.w → l.pix px py = 0)

/-- The class `ImageSegmentationAnnotations`: ordered labels plus an
insertion-ordered label→layer mapping (Python `dict`). -/
structure SegAnn where
  labels : List String
  layers : List (String × Layer)

/-- The three annotation variants of an `ImageData` record, restricted to
their annotation content: `Classification` (optional label), `Detection`
(optional object list), `Segmentation` (optional layer container). -/
inductive RecData where
  | cls (ann : Option String)
  | det (ann : Option (List LocObj))
  | seg (ann : Option SegAnn)

/-- Dict lookup `layers[label]` (also `has_layer`). -/
def get_layer (layers : List (String × Layer)) (label : String) : Option Layer :=
  (layers.find? (fun p => p.1 == label)).map (·.2)

/-- Dict store `layers[label] = l`: replaces in place (keeping insertion
order) or appends a new key at the end. -/
def set_layer (layers : List (String × Layer)) (label : String) (l : Layer) :
    List (String × Layer) :=
  if (layers.find? (fun p => p.1 == label)).isSome then
    layers.map (fun p => if p.1 == label then (p.1, l) else p)
  else layers ++ [(label, l)]

/-- Embeds `prune_annotations` (`_sub_images_utils.py`, lines 503–535).
Classification records pass through; a Detection record takes
`len(image.annotation)` — raising `TypeError` when the annotation is `None`
— and drops an empty object list; a Segmentation record reads
`image.annotation.layers` — raising `AttributeError` when the annotation is
`None` — removes every all-background layer and drops the annotation when no
layer remains.  Python exceptions are embedded as `Except.error`. -/
def prune_annotations (image : RecData) : Except String RecData :=
  match image with
  | .cls a => .ok (.cls a)
  | .det none => .error "TypeError: object of type NoneType has no len"
  | .det (some objs) => .ok (.det (if objs.length = 0 then none else some objs))
  | .seg none => .error "AttributeError: NoneType object has no attribute layers"
  | .seg (some a) =>
      let keep := a.layers.filter (fun p => ! p.2.flagged_empty)
      .ok (.seg (if keep.length = 0 then none else some { a with layers := keep }))

/-- Embeds `crop_image` (`_sub_images_utils.py`, lines 260–296) on a numpy layer:
when a crop size is given and differs from the current size, keep the
top-left `[0:crop_height, 0:crop_width]` window (numpy slicing clamps, so a
dimension never grows). -/
def crop_layer (img : Layer) (crop_width crop_height : Option ℕ) : Layer :=
  match crop_width, crop_height with
  | some cw, some ch =>
      if img.w ≠ cw ∨ img.h ≠ ch then { img with w := min cw img.w, h := min ch img.h }
      else img
  | some cw, none => if img.w ≠ cw then { img with w := min cw img.w } else img
  | none, some ch => if img.h ≠ ch then { img with h := min ch img.h } else img
  | none, none => img

/-- Segmentation branch of `transfer_region` (`_sub_images_utils.py`, lines
486–496): for each sub-record layer, create an all-background full-size
layer if the full record lacks the label (`new_layer`, modelled per §4.4 as
zeros of the full image size), crop the sub-layer to
`(crop_width, crop_height)` if given, and *assign* it into the
`[y:y+h, x:x+w]` window of the full layer (numpy slice assignment; the
region lies inside the full image and the cropped layer matches the window
shape at every use, as numpy would otherwise raise). -/
def transfer_region_seg (full : SegAnn) (fullW fullH : ℕ)
    (subLayers : List (String × Layer)) (region : LocObj)
    (crop_width crop_height : Option ℕ) : SegAnn :=
  subLayers.foldl (fun acc p =>
    let x := region.x.toNat
    let y := region.y.toNat
    let w := region.w.toNat
    let h := region.h.toNat
    let layers1 := if (get_layer acc.layers p.1).isSome then acc.layers
                   else set_layer acc.layers p.1 ⟨fullW, fullH, fun _ _ => 0⟩
    let layer := crop_layer p.2 crop_width crop_height
    let target := (get_layer layers1 p.1).getD ⟨fullW, fullH, fun _ _ => 0⟩
    let written : Layer := { target with pix := fun px py =>
        (if x ≤ px ∧ px < x + w ∧ y ≤ py ∧ py < y + h then
          layer.pix (px - x) (py - y)
        else target.pix px py) }
    { acc with layers := set_layer layers1 p.1 written }) full

/-- The pixel window `[x, x+w) × [y, y+h)` of a region, in the `ℕ`
coordinates of a layer array. -/
def region_window_contains (r : LocObj) (px py : ℕ) : Prop :=
  r.x.toNat ≤ px ∧ px < r.x.toNat + r.w.toNat ∧
    r.y.toNat ≤ py ∧ py < r.y.toNat + r.h.toNat

instance (r : LocObj) (px py : ℕ) : Decidable (region_window_contains r px py) := by
  unfold region_window_contains; infer_instance

/-! ## Detection transfer (`transfer_region`, lines 457–483) and the
meta-filter loop (`_meta_sub_images.py`, lines 251–258) -/

/-- Object-detection branch of `transfer_region` (`_sub_images_utils.py`,
lines 457–483).  Each sub-record object is translated by the *current value
of the `region` variable* and appended to the full record's object list;
objects whose translated `x`/`y` reaches the full image's width/height are
skipped; an object whose translated extent straddles the right or bottom
edge is re-fitted against the full-image rectangle — and, crucially, the
source *rebinds the `region` variable* to that full-image rectangle
(`region = LocatedObject(0, 0, img_width, img_height)`), so every later
object in the same call is translated by `(0, 0)` instead of the region
offset.  The fold state carries `(region, accumulated objects)` to model the
mutation.  (`if lobj.has_polygon:` in the source tests a bound method —
always truthy — so the polygon translation runs unconditionally; for
objects without polygon the translated point list is empty.) -/
def transfer_region_det (full_objs sub_objs : List LocObj) (region : LocObj)
    (img_width img_height : ℤ) : List LocObj :=
  (sub_objs.foldl (fun st lobj =>
    let reg := st.1
    let new_lobj : LocObj := { lobj with
      x := lobj.x + reg.x, y := lobj.y + reg.y,
      poly := lobj.poly.map (fun p => (p.1 + reg.x, p.2 + reg.y)) }
    if new_lobj.x ≥ img_width then st
    else if new_lobj.y ≥ img_height then st
    else if (new_lobj.x < img_width ∧ new_lobj.x + new_lobj.w ≥ img_width) ∨
        (new_lobj.y < img_height ∧ new_lobj.y + new_lobj.h ≥ img_height) then
      let reg2 : LocObj := { x := 0, y := 0, w := img_width, h := img_height }
      (reg2, st.2 ++ [fit_located_object (-1) reg2 new_lobj])
    else (reg, st.2 ++ [new_lobj]))
    (region, full_objs)).2

/-- The per-tile loop of `MetaSubImages._do_process` (`_meta_sub_images.py`,
lines 252–258), for Detection records: for each extracted tile, run the
base filter; when it returns a *list* the tile is skipped (after an error
log); otherwise the returned sub-record is transferred into the record being
assembled.  The base filter is an opaque collaborator embedded as a
function returning either a single record's objects (`Sum.inl`) or a list
of records (`Sum.inr`). -/
def meta_transfer_det (img_width img_height : ℤ)
    (base : List LocObj → List LocObj ⊕ List (List LocObj))
    (tiles : List (LocObj × List LocObj)) (init : List LocObj) : List LocObj :=
  tiles.foldl (fun acc t =>
    match base t.2 with
    | .inr _ => acc
    | .inl objs => transfer_region_det acc objs t.1 img_width img_height) init

/-- The `MetaSubImages._do_process` emission (lines 251–264), for one Detection
record: the record assembled by `meta_transfer_det` (starting from the empty
template of `new_from_template`) is appended to the result list
unconditionally — there is no error path for a list-returning base filter. -/
def meta_do_process_det (img_width img_height : ℤ)
    (base : List LocObj → List LocObj ⊕ List (List LocObj))
    (tiles : List (LocObj × List LocObj)) : List (List LocObj) :=
  [meta_transfer_det img_width img_height base tiles []]

/-! ## Pixel-crop windows of the two extractor implementations (C8) -/

/-- Size of the sub-image cropped by `process_image`
(`_sub_images_utils.py`, lines 333–339): regions arrive as inclusive
`xyxy` tuples (`x1 = x + w - 1`); `x1`/`y1` are clamped to the last pixel
column/row, and the PIL crop box is `(x0, y0, x1+1, y1+1)`, whose size is
`(x1+1-x0, y1+1-y0)` (`ℕ`-truncated, matching PIL's empty crop when the
box is degenerate).  Region coordinates are non-negative, hence `ℕ`. -/
def sub_image_size_utils (img_width img_height : ℕ) (rx ry rw rh : ℕ) : ℕ × ℕ :=
  let x1 := rx + rw - 1
  let y1 := ry + rh - 1
  let x1 := if x1 ≥ img_width then img_width - 1 else x1
  let y1 := if y1 ≥ img_height then img_height - 1 else y1
  (x1 + 1 - rx, y1 + 1 - ry)

/-- Size of the sub-image cropped by `SubImages._do_process`
(`_sub_images.py`, lines 339–345): the same inclusive `x1 = x + w - 1` is
clamped only when `> img_width` and then passed *directly* as the exclusive
right bound of the PIL crop box `(x0, y0, x1, y1)`, whose size is
`(x1-x0, y1-y0)`. -/
def sub_image_size_subimages (img_width img_height : ℕ) (rx ry rw rh : ℕ) : ℕ × ℕ :=
  let x1 := rx + rw - 1
  let y1 := ry + rh - 1
  let x1 := if x1 > img_width then img_width else x1
  let y1 := if y1 > img_height then img_height else y1
  (x1 - rx, y1 - ry)

/-! ## Polygon Merger (`merge_polygons`, `_sub_images_utils.py` 567–700) -/

/-- Rotate right: `[p0,…,pn] ↦ [pn,p0,…,p(n-1)]`.  Zipping with the original
list yields the closed edge cycle `(p(n-1 mod n), p(n))` exactly as the
source's `LineString([(xs[n-1], ys[n-1]), (xs[n], ys[n])])` built with
Python's `xs[-1]` wrap-around. -/
def rot_right (l : List (ℤ × ℤ)) : List (ℤ × ℤ) :=
  match l.getLast? with
  | none => []
  | some a => a :: l.dropLast

/-- The vertex list used by `merge_polygons` (lines 596–601): the explicit
polygon when present, else the four bbox corners. -/
def obj_points (o : LocObj) : List (ℤ × ℤ) :=
  if o.poly.isEmpty then
    [(o.x, o.y), (o.x + o.w - 1, o.y), (o.x + o.w - 1, o.y + o.h - 1),
      (o.x, o.y + o.h - 1)]
  else o.poly

/-- The closed edge cycle of an object (the `vertices[i]` line strings). -/
def obj_edges (o : LocObj) : List ((ℤ × ℤ) × (ℤ × ℤ)) :=
  (rot_right (obj_points o)).zip (obj_points o)

/-- Edge slope `m = (y1-y0)/(x1-x0)` (lines 605–610); `none` embeds the
source's `math.inf` for vertical edges. -/
def edge_slope (e : (ℤ × ℤ) × (ℤ × ℤ)) : Option ℚ :=
  if e.2.1 - e.1.1 = 0 then none
  else some (((e.2.2 - e.1.2 : ℤ) : ℚ) / ((e.2.1 - e.1.1 : ℤ) : ℚ))

/-- The parallelism test (lines 623–637): horizontal–horizontal, both
vertical (`math.inf`), or `|slope difference| ≤ max_slope_diff`; a
vertical–non-vertical pair has difference `∞`, never `≤ max_slope_diff`. -/
def is_parallel (s1 s2 : Option ℚ) (max_slope_diff : ℚ) : Bool :=
  match s1, s2 with
  | some a, some b =>
      if a = 0 ∧ b = 0 then true else decide (|a - b| ≤ max_slope_diff)
  | none, none => true
  | _, _ => false

/-- Orientation (2-D cross product) of `c` relative to the segment `a→b`. -/
def orient2 (a b c : ℤ × ℤ) : ℤ :=
  (b.1 - a.1) * (c.2 - a.2) - (b.2 - a.2) * (c.1 - a.1)

/-- Tests that `c` lies in the bounding box of `a–b` (used with collinearity to decide
membership in the closed segment). -/
def on_seg (a b c : ℤ × ℤ) : Bool :=
  decide (min a.1 b.1 ≤ c.1) && decide (c.1 ≤ max a.1 b.1) &&
    decide (min a.2 b.2 ≤ c.2) && decide (c.2 ≤ max a.2 b.2)

/-- Whether two closed segments intersect (standard orientation test with
the collinear special cases). -/
def segs_intersect (s1 s2 : (ℤ × ℤ) × (ℤ × ℤ)) : Bool :=
  let p1 := s1.1
  let q1 := s1.2
  let p2 := s2.1
  let q2 := s2.2
  let d1 := orient2 p1 q1 p2
  let d2 := orient2 p1 q1 q2
  let d3 := orient2 p2 q2 p1
  let d4 := orient2 p2 q2 q1
  (decide (d1 * d2 < 0) && decide (d3 * d4 < 0)) ||
    (decide (d1 = 0) && on_seg p1 q1 p2) ||
    (decide (d2 = 0) && on_seg p1 q1 q2) ||
    (decide (d3 = 0) && on_seg p2 q2 p1) ||
    (decide (d4 = 0) && on_seg p2 q2 q1)

/-- Squared distance from point `p` to the closed segment `a–b`, in exact
rational arithmetic. -/
def pt_seg_distSq (p a b : ℤ × ℤ) : ℚ :=
  let abx := b.1 - a.1
  let aby := b.2 - a.2
  let apx := p.1 - a.1
  let apy := p.2 - a.2
  let len2 : ℤ := abx * abx + aby * aby
  if len2 = 0 then ((apx * apx + apy * apy : ℤ) : ℚ)
  else
    let t : ℚ := max 0 (min 1 (((abx * apx + aby * apy : ℤ) : ℚ) / ((len2 : ℤ) : ℚ)))
    let dx : ℚ := (apx : ℚ) - t * (abx : ℚ)
    let dy : ℚ := (apy : ℚ) - t * (aby : ℚ)
    dx * dx + dy * dy

/-- Squared minimum distance between two closed segments: 0 when they
intersect, else the least of the four endpoint–segment distances.  Both
sides non-negative, shapely's `distance(l1, l2) ≤ max_dist` (line 641–642)
iff `seg_distSq l1 l2 ≤ max_dist²`. -/
def seg_distSq (s1 s2 : (ℤ × ℤ) × (ℤ × ℤ)) : ℚ :=
  if segs_intersect s1 s2 then 0
  else
    min (min (pt_seg_distSq s1.1 s2.1 s2.2) (pt_seg_distSq s1.2 s2.1 s2.2))
        (min (pt_seg_distSq s2.1 s1.1 s1.2) (pt_seg_distSq s2.2 s1.1 s1.2))

/-- Objects `o1`, `o2` are merge candidates (inner loops, lines 621–645):
some pair of edges, one from each, is parallel and within `max_dist`.
The same-label requirement is checked by the caller. -/
def pair_is_candidate (o1 o2 : LocObj) (max_slope_diff max_dist : ℚ) : Bool :=
  (obj_edges o1).any (fun e1 => (obj_edges o2).any (fun e2 =>
    is_parallel (edge_slope e1) (edge_slope e2) max_slope_diff &&
      decide (seg_distSq e1 e2 ≤ max_dist * max_dist)))

/-- The `parallel` dict of `merge_polygons` (lines 612–645): for each object
index `i` in ascending order, the ascending list of partners `n > i` with
the same label and a candidate edge pair; indices with no partner get no
entry.  (Python stores the partners in a `set` of small non-negative ints,
whose iteration order is ascending, matching this list.) -/
def build_parallel (objs : List LocObj) (max_slope_diff max_dist : ℚ) :
    List (ℕ × List ℕ) :=
  objs.enum.filterMap (fun p =>
    let ns := objs.enum.filterMap (fun q =>
      if p.1 < q.1 ∧ p.2.label = q.2.label ∧
          pair_is_candidate p.2 q.2 max_slope_diff max_dist = true then
        some q.1
      else none)
    if ns.isEmpty then none else some (p.1, ns))

/-- Ordered duplicate-free insert (Python `set.add`; sets of small
non-negative ints iterate in ascending order). -/
def ins_sorted (a : ℕ) : List ℕ → List ℕ
  | [] => [a]
  | b :: t => if a < b then a :: b :: t else if a = b then b :: t else b :: ins_sorted a t

/-- Index of the first merge set containing `a` (the inner
`for n, merge_set in enumerate(merge_sets)` scan, lines 655–658). -/
def find_set_idx (a : ℕ) : List (List ℕ) → Option ℕ
  | [] => none
  | s :: rest => if a ∈ s then some 0 else (find_set_idx a rest).map (· + 1)

/-- The scan over `all_` (lines 653–660): returns the prefix of elements
Python adds to `to_merge` before breaking (all elements scanned, including
the one found), and the index of the found merge set, if any. -/
def scan_found (sets : List (List ℕ)) : List ℕ → List ℕ × Option ℕ
  | [] => ([], none)
  | a :: rest =>
      match find_set_idx a sets with
      | some n => ([a], some n)
      | none =>
          let pr := scan_found sets rest
          (a :: pr.1, pr.2)

/-- One step of the merge-set construction (lines 650–665) on the state
`(merge_sets, to_merge)`: the entry's members `all_ = [i, *ns]` either join
the first existing merge set containing one of them, or form a new set. -/
def merge_sets_step (st : List (List ℕ) × List ℕ) (e : ℕ × List ℕ) :
    List (List ℕ) × List ℕ :=
  let all_ := e.1 :: e.2
  let sf := scan_found st.1 all_
  let to_merge := sf.1.foldl (fun tm a => ins_sorted a tm) st.2
  match sf.2 with
  | none => (st.1 ++ [all_.foldl (fun s a => ins_sorted a s) []], to_merge)
  | some n =>
      (st.1.enum.map (fun p =>
        if p.1 = n then all_.foldl (fun s a => ins_sorted a s) p.2 else p.2),
        to_merge)

/-- Embeds `build_merge_sets`: fold of `merge_sets_step` over the `parallel`
entries, from the empty state. -/
def build_merge_sets (entries : List (ℕ × List ℕ)) : List (List ℕ) × List ℕ :=
  entries.foldl merge_sets_step ([], [])

/-- Models `shapely.union` of the rectangle-restricted Geometry Adapter
(`Modelled from the spec:` §4.2): the union of two aligned
overlapping/abutting rectangles is their bounding rectangle; a disjoint
union is a multi-part geometry of which downstream conversion keeps the
first polygonal member (§4.2/§9), i.e. the first argument.  Unaligned
overlapping unions (non-rectangular results) do not arise in this
development. -/
def rect_union (a b : GRect) : GRect :=
  if a.y0 = b.y0 ∧ a.y1 = b.y1 ∧ max a.x0 b.x0 ≤ min a.x1 b.x1 then
    ⟨min a.x0 b.x0, a.y0, max a.x1 b.x1, a.y1⟩
  else if a.x0 = b.x0 ∧ a.x1 = b.x1 ∧ max a.y0 b.y0 ≤ min a.y1 b.y1 then
    ⟨a.x0, min a.y0 b.y0, a.x1, max a.y1 b.y1⟩
  else a

/-- Models `shapely_to_locatedobject` (external `idc.api`), rectangle model: bbox
from the geometry bounds (`width = x1-x0+1`), polygon = the rectangle's
four corners, carrying the given label. -/
def grect_to_locobj (g : GRect) (label : String) : LocObj :=
  { x := g.x0, y := g.y0, w := g.x1 - g.x0 + 1, h := g.y1 - g.y0 + 1,
    poly := [(g.x0, g.y0), (g.x1, g.y0), (g.x1, g.y1), (g.x0, g.y1)],
    label := label }

/-- One merged object from a merge set (lines 675–693): the label of the
first member (ascending index order), the geometric union over the members,
and the arithmetic-mean score of the members carrying one. -/
def merge_one_set (objs : List LocObj) (ms : List ℕ) : LocObj :=
  let members := ms.filterMap (fun i => objs.get? i)
  let label := (members.head?.map (fun o => o.label)).getD ""
  let scores := members.filterMap (fun o => o.score)
  let g := match members with
    | [] => GRect.mk 0 0 0 0
    | m :: rest => rest.foldl (fun acc o => rect_union acc o.geom_rect) m.geom_rect
  let obj := grect_to_locobj g label
  match scores with
  | [] => obj
  | _ => { obj with score := some (scores.sum / (scores.length : ℚ)) }

/-- Embeds `merge_polygons` (lines 567–700) on the object list of a Detection
record in absolute coordinates (the normalized round-trip of the source is
the identity there): build the `parallel` map and the merge sets; when any
merge set exists, emit the objects outside `to_merge` followed by one union
object per merge set, else return the record unchanged. -/
def merge_polygons (objs : List LocObj) (max_slope_diff max_dist : ℚ) :
    List LocObj :=
  let entries := build_parallel objs max_slope_diff max_dist
  let bm := build_merge_sets entries
  if bm.1.length > 0 then
    (objs.enum.filterMap (fun p => if p.1 ∈ bm.2 then none else some p.2)) ++
      bm.1.map (merge_one_set objs)
  else objs

/-- The four-object chain record of claims C4/C5: same-label boxes
`B = (0,0,4,2)`, `C = (3,0,4,2)`, `D = (6,0,4,2)`, `A = (9,0,4,2)` listed in
the order `[A, B, C, D]`; consecutive chain members abut (edge distance 0),
non-consecutive ones are 3 pixels apart (distance > 1). -/
def chain_objs : List LocObj :=
  [{ x := 9, y := 0, w := 4, h := 2, label := "a" },
   { x := 0, y := 0, w := 4, h := 2, label := "a" },
   { x := 3, y := 0, w := 4, h := 2, label := "a" },
   { x := 6, y := 0, w := 4, h := 2, label := "a" }]

/-- Concrete sub-record objects of claim C2's failing input (fitted objects
carry their rectangle polygons, as extractor output always does). -/
def c2_obj1 : LocObj :=
  { x := 10, y := 10, w := 60, h := 10, poly := [(10, 10), (69, 10), (69, 19), (10, 19)], label := "a" }

/-- Second object of claim C2's failing input. -/
def c2_obj2 : LocObj :=
  { x := 1, y := 2, w := 3, h := 4, poly := [(1, 2), (3, 2), (3, 5), (1, 5)], label := "a" }

/-- First-tile object of claim C7's counterexample input. -/
def c7_objA : LocObj :=
  { x := 0, y := 0, w := 2, h := 2, poly := [(0, 0), (1, 0), (1, 1), (0, 1)], label := "a" }

/-- Second-tile object of claim C7's counterexample input. -/
def c7_objB : LocObj :=
  { x := 1, y := 1, w := 2, h := 2, poly := [(1, 1), (2, 1), (2, 2), (1, 2)], label := "b" }

/-- The two extracted tiles of claim C7's counterexample input. -/
def c7_tiles : List (LocObj × List LocObj) :=
  [({ x := 0, y := 0, w := 10, h := 10 }, [c7_objA]),
    ({ x := 10, y := 0, w := 10, h := 10 }, [c7_objB])]

/-- The object `c7_objB` translated by its tile's region offset `(10, 0)`. -/
def c7_objB_t : LocObj :=
  { x := 11, y := 1, w := 2, h := 2, poly := [(11, 1), (12, 1), (12, 2), (11, 2)], label := "b" }

/-! ## Theorems -/

section GridTiling

/-- Uniform-cell characterization: when the image splits exactly
(`height = num_rows * qh`, `width = num_cols * qw`, no margins, no overlap,
` fixed_size = false`), every generated grid cell is the uniform block
`⟨c*qw, r*qh, qw, qh⟩`. -/
theorem generate_grid_divisible (R C qw qh : ℕ) (hR : 0 < R) (hC : 0 < C) :
    generate_grid (C * qw) (R * qh) R C false 0 0 0 0 0 0 =
      (List.range R).flatMap (fun r => (List.range C).map (fun c =>
        Region.mk (c * qw) (r * qh) qw qh)) := by
  have hy : ∀ n m k : ℕ, 0 < n → k * (n * m) / n = k * m := by
    intro n m k hn
    rw [mul_comm n m, ← mul_assoc, Nat.mul_div_cancel _ hn]
  have hlast : ∀ n m : ℕ, 0 < n → n * m - (n - 1) * m = m := by
    intro n m hn
    rw [Nat.sub_mul, one_mul, Nat.sub_sub_self (Nat.le_mul_of_pos_left m hn)]
  unfold generate_grid
  simp only [Nat.sub_zero, Nat.add_zero, add_zero, ite_self, eq_self_iff_true, and_true]
  refine congrArg _ ?_
  funext row
  rw [hy R qh row hR]
  apply List.map_congr_left
  intro col _hc
  rw [hy C qw col hC]
  by_cases hrow : row = R - 1 <;> by_cases hcol : col = C - 1 <;>
    simp [hrow, hcol, hlast R qh hR, hlast C qw hC,
      Nat.mul_div_cancel_left _ hR, Nat.mul_div_cancel_left _ hC]

end GridTiling

/-- Claim C1, counterexample.  With image `W = H = 5`, `num_rows = 3`,
`num_cols = 1`, ` fixed_size = false`, zero overlaps and margins, the region
generator emits `R*C = 3` regions (`(0,0,5,1)`, `(0,1,5,1)`, `(0,3,5,2)`),
yet pixel `(0,2)` of the image lies in none of them: the generated grid does
not tile `[0,W) × [0,H)`, refuting the claim as stated. -/
theorem C1_grid_coverage_counterexample :
    (generate_grid 5 5 3 1 false 0 0 0 0 0 0).length = 3 * 1 ∧
      (generate_grid 5 5 3 1 false 0 0 0 0 0 0).countP
        (fun reg => decide (reg.contains 0 2)) = 0 := by
  decide

/-- Division distributes sub-additively over addition. -/
theorem div_add_div_le_add_div (x y n : ℕ) (hn : 0 < n) :
    x / n + y / n ≤ (x + y) / n := by
  rw [Nat.le_div_iff_mul_le hn, add_mul]
  exact add_le_add (Nat.div_mul_le_self x n) (Nat.div_mul_le_self y n)

/-- Consecutive grid starts are at least one nominal cell apart:
`a*k/n + k/n ≤ b*k/n` for `a < b`. -/
theorem grid_start_step {a b : ℕ} (k n : ℕ) (hn : 0 < n) (hab : a < b) :
    a * k / n + k / n ≤ b * k / n := by
  calc a * k / n + k / n ≤ (a * k + k) / n := div_add_div_le_add_div _ _ _ hn
    _ = (a + 1) * k / n := by rw [Nat.succ_mul]
    _ ≤ b * k / n := Nat.div_le_div_right (Nat.mul_le_mul_right k hab)

/-- The grid regions generated with zero overlaps and margins and
` fixed_size = false` are pairwise non-overlapping, for every image size and
grid shape: a non-last row/column of nominal size `⌊H/R⌋`/`⌊W/C⌋` never
reaches the next start `⌊(r+1)·H/R⌋`/`⌊(c+1)·W/C⌋` (which is also why gaps
can remain — the two can differ). -/
theorem generate_grid_pairwise_disjoint (W H R C : ℕ) :
    (generate_grid W H R C false 0 0 0 0 0 0).Pairwise
      (fun r1 r2 => ∀ px py, ¬ (r1.contains px py ∧ r2.contains px py)) := by
  unfold generate_grid
  simp only [Nat.sub_zero, Nat.add_zero, add_zero, ite_self, eq_self_iff_true, and_true]
  rw [List.pairwise_flatMap]
  constructor
  · intro row _
    rw [List.pairwise_map]
    refine List.Pairwise.imp_of_mem ?_ (List.pairwise_lt_range C)
    intro c1 c2 hc1 hc2 hlt px py hcont
    rw [List.mem_range] at hc2
    obtain ⟨⟨_, h2, _, _⟩, ⟨h3, _, _, _⟩⟩ := hcont
    have hne : ¬ c1 = C - 1 := by omega
    rw [if_neg hne] at h2
    have hkey : c1 * W / C + W / C ≤ c2 * W / C :=
      grid_start_step W C (by omega) hlt
    simp only [Region.contains] at *
    linarith
  · refine List.Pairwise.imp_of_mem ?_ (List.pairwise_lt_range R)
    intro r1 r2 hr1 hr2 hlt reg1 hreg1 reg2 hreg2 px py hcont
    rw [List.mem_range] at hr2
    rw [List.mem_map] at hreg1 hreg2
    obtain ⟨c1, _, rfl⟩ := hreg1
    obtain ⟨c2, _, rfl⟩ := hreg2
    obtain ⟨⟨_, _, _, h2⟩, ⟨_, _, h3, _⟩⟩ := hcont
    have hne : ¬ r1 = R - 1 := by omega
    rw [if_neg hne] at h2
    have hkey : r1 * H / R + H / R ≤ r2 * H / R :=
      grid_start_step H R (by omega) hlt
    linarith

/-- Claim C1, amended.  For every image `W×H` (`W,H > 0`) and `R,C > 0`,
grid mode with `fixed_size = false`, `overlap_right = overlap_bottom = 0`
and all margins `0` produces `R*C` regions and no two generated regions
share a pixel; the regions moreover exactly tile `[0,W)×[0,H)` — every
pixel `(px,py)` with `px < W`, `py < H` lies in (exactly) one region —
provided `R ∣ H` and `C ∣ W`.  (The divisibility proviso on coverage is
what the counterexample forces: without it the non-last rows/columns of
height `⌊H/R⌋` / width `⌊W/C⌋` can leave interior gaps.) -/
theorem C1_grid_coverage_amended (W H R C : ℕ) (hW : 0 < W) (hH : 0 < H)
    (hR : 0 < R) (hC : 0 < C) :
    (generate_grid W H R C false 0 0 0 0 0 0).length = R * C ∧
      (generate_grid W H R C false 0 0 0 0 0 0).Pairwise
        (fun r1 r2 => ∀ px py, ¬ (r1.contains px py ∧ r2.contains px py)) ∧
      (R ∣ H → C ∣ W → ∀ px py, px < W → py < H →
        ∃ reg ∈ generate_grid W H R C false 0 0 0 0 0 0, reg.contains px py) := by
  refine ⟨?_, generate_grid_pairwise_disjoint W H R C, ?_⟩
  · unfold generate_grid
    rw [List.length_flatMap]
    simp [Function.comp_def, List.map_const', List.sum_replicate, smul_eq_mul]
  · intro hdH hdW px py hpx hpy
    obtain ⟨qh, rfl⟩ := hdH
    obtain ⟨qw, rfl⟩ := hdW
    have hqh : 0 < qh := by
      rcases Nat.eq_zero_or_pos qh with h | h
      · subst h; simp at hH
      · exact h
    have hqw : 0 < qw := by
      rcases Nat.eq_zero_or_pos qw with h | h
      · subst h; simp at hW
      · exact h
    rw [generate_grid_divisible R C qw qh hR hC]
    refine ⟨⟨(px / qw) * qw, (py / qh) * qh, qw, qh⟩, ?_, ?_⟩
    · rw [List.mem_flatMap]
      refine ⟨py / qh, List.mem_range.2 ((Nat.div_lt_iff_lt_mul hqh).2 hpy), ?_⟩
      rw [List.mem_map]
      exact ⟨px / qw, List.mem_range.2 ((Nat.div_lt_iff_lt_mul hqw).2 hpx), rfl⟩
    · have h2 : px < (px / qw).succ * qw :=
        (Nat.div_lt_iff_lt_mul hqw).1 (Nat.lt_succ_self (px / qw))
      have h4 : py < (py / qh).succ * qh :=
        (Nat.div_lt_iff_lt_mul hqh).1 (Nat.lt_succ_self (py / qh))
      rw [Nat.succ_mul] at h2 h4
      exact ⟨Nat.div_mul_le_self px qw, h2, Nat.div_mul_le_self py qh, h4⟩

/-- Witness for `C1_grid_coverage_amended` at `W = H = 4`, `R = C = 2`. -/
theorem C1_grid_coverage_amended_witness :
    (generate_grid 4 4 2 2 false 0 0 0 0 0 0).length = 2 * 2 ∧
      (generate_grid 4 4 2 2 false 0 0 0 0 0 0).Pairwise
        (fun r1 r2 => ∀ px py, ¬ (r1.contains px py ∧ r2.contains px py)) ∧
      ((2 : ℕ) ∣ 4 → (2 : ℕ) ∣ 4 → ∀ px py, px < 4 → py < 4 →
        ∃ reg ∈ generate_grid 4 4 2 2 false 0 0 0 0 0 0, reg.contains px py) :=
  C1_grid_coverage_amended 4 4 2 2 (by decide) (by decide) (by decide) (by decide)

/-- Claim C6.  During Detection extraction, for every annotation list, region
list and flag setting, the extractor's behaviour coincides with the claim's
rule: an object with overlap ratio `≥ 1` is always included in its tile, an
object with ratio strictly between 0 and 1 is included iff
` include_partial`, an object with ratio 0 is never included, and a tile
whose resulting object list is empty is omitted from the output exactly when
` suppress_empty` is set. -/
theorem C6_extraction_inclusion (objs : Option (List LocObj))
    (regions : List LocObj) ( suppress_empty include_partial : Bool) :
    process_image_det objs regions suppress_empty include_partial =
      process_image_det_spec objs regions suppress_empty include_partial := by
  have htile : ∀ (i : ℤ) (region : LocObj),
      det_tile_objects objs i region include_partial =
        det_tile_objects_spec objs i region include_partial := by
    intro i region
    cases objs with
    | none => rfl
    | some l =>
      apply List.filterMap_congr
      intro ann _
      have hiff : det_included region ann include_partial = true ↔
          (1 ≤ overlap_ratio region ann ∨
            (0 < overlap_ratio region ann ∧ overlap_ratio region ann < 1 ∧
              include_partial = true)) := by
        simp only [det_included, Bool.or_eq_true, Bool.and_eq_true,
          decide_eq_true_eq]
        constructor
        · rintro (⟨hr, hip⟩ | hr)
          · by_cases h1 : (1 : ℚ) ≤ overlap_ratio region ann
            · exact Or.inl h1
            · exact Or.inr ⟨hr, lt_of_not_ge h1, hip⟩
          · exact Or.inl hr
        · rintro (hr | ⟨h0, _, hip⟩)
          · exact Or.inr hr
          · exact Or.inl ⟨h0, hip⟩
      split_ifs with hb hs hs
      · rfl
      · exact absurd (hiff.1 hb) hs
      · exact absurd (hiff.2 hs) (by simpa using hb)
      · rfl
  unfold process_image_det process_image_det_spec
  apply List.filterMap_congr
  intro p _
  rw [htile (p.1 : ℤ) p.2]
  rcases hl : det_tile_objects_spec objs (p.1 : ℤ) p.2 include_partial with _ | ⟨a, t⟩ <;>
    cases suppress_empty <;> simp

/-- Claim C10.  The function `parse_regions` silently drops malformed region
specifications: for every input list, both returned lists have exactly one
entry per input whose comma-split yields 4 integer components — so the
output can be shorter than the input — no error is raised (the function is
total), and if every input is malformed the result is empty. -/
theorem C10_parse_regions_malformed_dropped (regions : List (List ℤ))
    (sorting : RegionSorting) :
    (parse_regions regions sorting).1.length
        = regions.countP (fun c => c.length == 4) ∧
      (parse_regions regions sorting).2.length
        = regions.countP (fun c => c.length == 4) ∧
      (parse_regions regions sorting).1.length ≤ regions.length ∧
      ((∀ c ∈ regions, c.length ≠ 4) → parse_regions regions sorting = ([], [])) := by
  have hsome : ∀ coords : List ℤ,
      (parse_region_coords coords).isSome = (coords.length == 4) := by
    intro coords
    rcases coords with _ | ⟨x, _ | ⟨y, _ | ⟨w, _ | ⟨h, _ | t⟩⟩⟩⟩ <;>
      simp [parse_region_coords]
  have hflen : (regions.filterMap parse_region_coords).length
      = regions.countP (fun c => c.length == 4) := by
    rw [List.length_filterMap_eq_countP]
    exact List.countP_congr (fun c _ => by rw [hsome c])
  have hslen : ∀ s : RegionSorting,
      (parse_regions regions s).1.length
        = regions.countP (fun c => c.length == 4) := by
    intro s
    cases s <;> simp [parse_regions, List.length_mergeSort, hflen]
  refine ⟨hslen sorting, ?_, ?_, ?_⟩
  · cases sorting <;>
      simp [parse_regions, List.length_map, List.length_mergeSort, hflen]
  · exact (hslen sorting).le.trans (List.countP_le_length _)
  · intro hall
    have hnil : regions.filterMap parse_region_coords = [] := by
      rw [List.filterMap_eq_nil_iff]
      intro c hc
      have := hsome c
      rcases h : parse_region_coords c with _ | v
      · rfl
      · rw [h] at this
        simp only [Option.isSome_some] at this
        have hc4 : c.length = 4 := by simpa using this.symm
        exact absurd hc4 (hall c hc)
    cases sorting <;> simp [parse_regions, hnil]

/-- Witness for `C10_parse_regions_malformed_dropped`: with both inputs
malformed (3 and 1 components), the parsed region list is empty. -/
theorem C10_parse_regions_malformed_dropped_witness :
    parse_regions [[1, 2, 3], [5]] .xy = ([], []) :=
  (C10_parse_regions_malformed_dropped [[1, 2, 3], [5]] .xy).2.2.2 (by decide)

/-- Claim C9.  The Annotation Pruner is not total on its accepted record
kinds: on a Segmentation record whose annotation is `None` it raises
(`image.annotation.layers` on `None` is an `AttributeError`) instead of
leaving the record unchanged — in particular, when a first call removes all
(all-background) layers and sets the annotation to `None`, a second call
raises. -/
theorem C9_prune_seg_none_raises (a : SegAnn)
    (hall : ∀ p ∈ a.layers, p.2.flagged_empty = true) :
    prune_annotations (.seg (some a)) = .ok (.seg none) ∧
      prune_annotations (.seg none) =
        .error "AttributeError: NoneType object has no attribute layers" := by
  refine ⟨?_, rfl⟩
  have hfil : a.layers.filter (fun p => ! p.2.flagged_empty) = [] := by
    rw [List.filter_eq_nil_iff]
    intro p hp
    simp [hall p hp]
  simp [prune_annotations, hfil]

/-- Witness for `C9_prune_seg_none_raises`: a segmentation record with one
all-background `1×1` layer. -/
theorem C9_prune_seg_none_raises_witness :
    prune_annotations (.seg (some ⟨["a"], [("a", ⟨1, 1, fun _ _ => 0⟩)]⟩))
        = .ok (.seg none) ∧
      prune_annotations (.seg none) =
        .error "AttributeError: NoneType object has no attribute layers" :=
  C9_prune_seg_none_raises ⟨["a"], [("a", ⟨1, 1, fun _ _ => 0⟩)]⟩ (by decide)

/-- Claim C3, counterexample.  Transferring a sub-layer with value 0 at a
pixel where the full-size layer already holds 1 leaves 0 at that pixel: the
sub-layer's values are *assigned* into the window, not added to the existing
values and clipped (which would give `min (1+0) 255 = 1`), refuting the
claim as stated. -/
theorem C3_seg_accumulate_counterexample :
    (get_layer (transfer_region_seg ⟨["a"], [("a", ⟨1, 1, fun _ _ => 1⟩)]⟩ 1 1
          [("a", ⟨1, 1, fun _ _ => 0⟩)] { x := 0, y := 0, w := 1, h := 1 }
          none none).layers "a").map (fun l => l.pix 0 0) = some 0 ∧
      some (0 : ℕ) ≠ some (min (1 + 0) 255) := by
  exact ⟨rfl, by decide⟩

/-- Claim C3, amended.  When a Segmentation sub-record is transferred into
the full record at a region, the (possibly cropped) sub-layer's pixel values
are *assigned* into the corresponding window of the full-size layer,
overwriting the existing values (no addition, no clipping): inside the
window the result equals the sub-layer's value regardless of what was there
before; outside every transferred window the full layer keeps its original
values.  In particular, where two overlapping tiles both contribute to a
pixel, the later tile's value replaces the earlier one's. -/
theorem C3_seg_transfer_overwrites (labels : List String) (lab : String)
    (fullL subA subB : Layer) (fullW fullH : ℕ) (ra rb : LocObj) (px py : ℕ) :
    (region_window_contains rb px py →
      (get_layer (transfer_region_seg
          (transfer_region_seg ⟨labels, [(lab, fullL)]⟩ fullW fullH
            [(lab, subA)] ra none none)
          fullW fullH [(lab, subB)] rb none none).layers lab).map
        (fun l => l.pix px py)
        = some (subB.pix (px - rb.x.toNat) (py - rb.y.toNat))) ∧
    (¬ region_window_contains ra px py → ¬ region_window_contains rb px py →
      (get_layer (transfer_region_seg
          (transfer_region_seg ⟨labels, [(lab, fullL)]⟩ fullW fullH
            [(lab, subA)] ra none none)
          fullW fullH [(lab, subB)] rb none none).layers lab).map
        (fun l => l.pix px py)
        = some (fullL.pix px py)) := by
  have hstep : ∀ (s : Layer) (sub : Layer) (r : LocObj),
      transfer_region_seg ⟨labels, [(lab, s)]⟩ fullW fullH [(lab, sub)] r none none
        = ⟨labels, [(lab, { s with pix := fun qx qy =>
            (if r.x.toNat ≤ qx ∧ qx < r.x.toNat + r.w.toNat ∧
                r.y.toNat ≤ qy ∧ qy < r.y.toNat + r.h.toNat then
              sub.pix (qx - r.x.toNat) (qy - r.y.toNat)
            else s.pix qx qy) })]⟩ := by
    intro s sub r
    simp [transfer_region_seg, get_layer, set_layer, crop_layer]
  rw [hstep, hstep]
  unfold region_window_contains
  have hfind : ∀ L : Layer, get_layer [(lab, L)] lab = some L := by
    intro L
    unfold get_layer
    rw [List.find?_cons_of_pos _ (by simp)]
    rfl
  constructor
  · intro hb
    rw [hfind]
    exact congrArg some (if_pos hb)
  · intro ha hb
    rw [hfind]
    exact congrArg some ((if_neg hb).trans (if_neg ha))

/-- Witness for `C3_seg_transfer_overwrites`: two overlapping `1`-pixel-wide
tiles over a `2×1` layer; at the shared pixel `(1,0)` the later tile's value
2 stands (first conjunct), and pixel `(0,0)` outside a `(1,0,1,1)`-window
pair keeps the original value 5 (second conjunct). -/
theorem C3_seg_transfer_overwrites_witness :
    (get_layer (transfer_region_seg
        (transfer_region_seg ⟨["a"], [("a", ⟨2, 1, fun _ _ => 5⟩)]⟩ 2 1
          [("a", ⟨2, 1, fun _ _ => 1⟩)] { x := 0, y := 0, w := 2, h := 1 }
          none none)
        2 1 [("a", ⟨1, 1, fun _ _ => 2⟩)] { x := 1, y := 0, w := 1, h := 1 }
        none none).layers "a").map (fun l => l.pix 1 0) = some 2 :=
  (C3_seg_transfer_overwrites ["a"] "a" ⟨2, 1, fun _ _ => 5⟩
      ⟨2, 1, fun _ _ => 1⟩ ⟨1, 1, fun _ _ => 2⟩ 2 1
      { x := 0, y := 0, w := 2, h := 1 } { x := 1, y := 0, w := 1, h := 1 }
      1 0).1 (by decide)

/-- Claim C2.  Evaluation at the failing input of the region-rebinding bug in
the Detection branch of `transfer_region`: transferring the sub-record
objects `[(10,10,60,10), (1,2,3,4)]` into a `100×100` full image at region
`(50,50,50,50)`, the first object straddles the right edge and triggers the
fitting path, which rebinds the `region` variable to `(0,0,100,100)`; the
second object is then translated by `(0,0)` and lands at `(1,2)` instead of
`(1+50, 2+50)` — the offset applied to an object depends on the objects
processed before it, contradicting the claim (whose statement matches the
spec's intent, §4.4). -/
theorem C2_transfer_offset_bug_eval :
    (transfer_region_det [] [c2_obj1, c2_obj2]
        { x := 50, y := 50, w := 50, h := 50 } 100 100).map (fun o => (o.x, o.y))
      = [(60, 60), (1, 2)] ∧
    ((1 : ℤ), (2 : ℤ)) ≠ (1 + 50, 2 + 50) := by
  exact ⟨by decide, by decide⟩

/-- Claim C7, counterexample.  A base filter that returns a list for the
first tile and behaves as the identity on the second: the record does not
fail — the offending tile is skipped, the second tile is still transferred,
and the resulting partially-assembled record (containing only the second
tile's object, translated to `(11,1)`) is emitted as the result, unlike the
claim's required record-level failure.  An identity base filter on the same
input yields both objects, exhibiting the missing first tile. -/
theorem C7_meta_list_result_counterexample :
    meta_do_process_det 100 100
        (fun objs => if objs = [c7_objA] then .inr [objs] else .inl objs) c7_tiles
      = [[c7_objB_t]] ∧
    meta_do_process_det 100 100 (fun objs => .inl objs) c7_tiles
      = [[c7_objA, c7_objB_t]] := by
  exact ⟨by decide, by decide⟩

/-- Claim C7, amended.  When the external per-tile step returns a list for
some tile, that tile is skipped (after an error log) and the remaining
tiles are still transferred: assembling with skips is exactly assembling
the sub-list of tiles whose base-filter result is a single record, and the
(possibly partially-assembled) record is emitted rather than failing. -/
theorem C7_meta_skip_equals_assemble_filtered (img_width img_height : ℤ)
    (base : List LocObj → List LocObj ⊕ List (List LocObj))
    (tiles : List (LocObj × List LocObj)) (init : List LocObj) :
    meta_transfer_det img_width img_height base tiles init =
      (tiles.filterMap (fun t => match base t.2 with
          | .inl objs => some (t.1, objs)
          | .inr _ => none)).foldl
        (fun acc t => transfer_region_det acc t.2 t.1 img_width img_height) init := by
  induction tiles generalizing init with
  | nil => rfl
  | cons hd tl ih =>
    unfold meta_transfer_det at ih ⊢
    cases hbase : base hd.2 with
    | inl objs =>
      simp only [List.foldl_cons, List.filterMap_cons, hbase]
      exact ih _
    | inr ls =>
      simp only [List.foldl_cons, List.filterMap_cons, hbase]
      exact ih _

/-- Claim C8.  For the region `(0,0,2,2)` lying entirely inside a `5×5`
image, the shared-utilities extractor crops an exactly `2×2` sub-image, as
the claim states — but the `SubImages` filter's own crop
(`_sub_images.py`, lines 339–345) passes the inclusive corner `x1 = x+w-1`
as PIL's exclusive bound and produces a `1×1` sub-image: an off-by-one that
contradicts the claim (and the `regions (X,Y,WIDTH,HEIGHT)` documentation of
the filter itself, as well as the corrected twin implementation in
`_sub_images_utils.py`). -/
theorem C8_crop_window_off_by_one :
    sub_image_size_utils 5 5 0 0 2 2 = (2, 2) ∧
      sub_image_size_subimages 5 5 0 0 2 2 = (1, 1) ∧
      ((1, 1) : ℕ × ℕ) ≠ (2, 2) := by
  decide

/-- Membership in an ordered insert. -/
theorem mem_ins_sorted {a b : ℕ} {s : List ℕ} :
    a ∈ ins_sorted b s ↔ a = b ∨ a ∈ s := by
  induction s with
  | nil => simp [ins_sorted]
  | cons c t ih =>
    unfold ins_sorted
    split_ifs with h1 h2
    · simp
    · subst h2
      simp only [List.mem_cons]
      tauto
    · simp only [List.mem_cons, ih]
      tauto

/-- Everything in the inserted list or the start set survives the fold of
ordered inserts. -/
theorem mem_foldl_ins {a : ℕ} :
    ∀ (l s : List ℕ), (a ∈ l ∨ a ∈ s) →
      a ∈ l.foldl (fun acc x => ins_sorted x acc) s := by
  intro l
  induction l with
  | nil =>
    intro s h
    simpa using h.resolve_left (by simp)
  | cons b t ih =>
    intro s h
    simp only [List.foldl_cons]
    apply ih
    rcases h with h | h
    · rcases List.mem_cons.mp h with rfl | h
      · exact Or.inr (mem_ins_sorted.mpr (Or.inl rfl))
      · exact Or.inl h
    · exact Or.inr (mem_ins_sorted.mpr (Or.inr h))

/-- The fold of ordered inserts only grows the set. -/
theorem subset_foldl_ins (l s : List ℕ) :
    s ⊆ l.foldl (fun acc x => ins_sorted x acc) s :=
  fun _ ha => mem_foldl_ins l s (Or.inr ha)

/-- A found first-set index is in range. -/
theorem find_set_idx_lt {a : ℕ} :
    ∀ {sets : List (List ℕ)} {n}, find_set_idx a sets = some n → n < sets.length := by
  intro sets
  induction sets with
  | nil => intro n h; simp [find_set_idx] at h
  | cons s rest ih =>
    intro n h
    unfold find_set_idx at h
    split_ifs at h with hmem
    · cases h
      exact Nat.succ_pos _
    · cases hf : find_set_idx a rest with
      | none => rw [hf] at h; simp at h
      | some m =>
        rw [hf] at h
        simp only [Option.map_some'] at h
        cases h
        exact Nat.succ_lt_succ (ih hf)

/-- A found scan index is in range. -/
theorem scan_found_some_lt {sets : List (List ℕ)} :
    ∀ {l : List ℕ} {n}, (scan_found sets l).2 = some n → n < sets.length := by
  intro l
  induction l with
  | nil => intro n h; simp [scan_found] at h
  | cons a rest ih =>
    intro n h
    unfold scan_found at h
    cases hf : find_set_idx a sets with
    | some m =>
      rw [hf] at h
      cases h
      exact find_set_idx_lt hf
    | none =>
      rw [hf] at h
      exact ih h

/-- A merge-set step never shrinks an existing merge set: every set of the
old state is contained in some set of the new state. -/
theorem merge_sets_step_grows (st : List (List ℕ) × List ℕ) (e : ℕ × List ℕ) :
    ∀ s ∈ st.1, ∃ s2 ∈ (merge_sets_step st e).1, s ⊆ s2 := by
  intro s hs
  cases hf : (scan_found st.1 (e.1 :: e.2)).2 with
  | none =>
    simp only [merge_sets_step, hf]
    exact ⟨s, List.mem_append_left _ hs, List.Subset.refl s⟩
  | some n =>
    simp only [merge_sets_step, hf]
    obtain ⟨k, hk, hks⟩ := List.mem_iff_getElem.mp hs
    have hklt : k < (st.1.enum.map (fun p =>
        if p.1 = n then (e.1 :: e.2).foldl (fun s a => ins_sorted a s) p.2
        else p.2)).length := by
      simpa [List.enum_length] using hk
    refine ⟨_, List.getElem_mem hklt, ?_⟩
    rw [List.getElem_map, List.getElem_enum]
    by_cases hkn : k = n
    · rw [if_pos hkn, hks]
      exact subset_foldl_ins _ s
    · rw [if_neg hkn, hks]
      exact List.Subset.refl s

/-- A merge-set step puts its own entry's members together into one merge
set of the new state. -/
theorem merge_sets_step_estab (st : List (List ℕ) × List ℕ) (e : ℕ × List ℕ) :
    ∃ s ∈ (merge_sets_step st e).1, e.1 ∈ s ∧ ∀ n ∈ e.2, n ∈ s := by
  cases hf : (scan_found st.1 (e.1 :: e.2)).2 with
  | none =>
    simp only [merge_sets_step, hf]
    refine ⟨(e.1 :: e.2).foldl (fun s a => ins_sorted a s) [],
      List.mem_append_right _ (by simp), ?_, ?_⟩
    · exact mem_foldl_ins _ _ (Or.inl (by simp))
    · intro n hn
      exact mem_foldl_ins _ _ (Or.inl (by simp [hn]))
  | some n =>
    simp only [merge_sets_step, hf]
    have hn : n < st.1.length := scan_found_some_lt hf
    have hklt : n < (st.1.enum.map (fun p =>
        if p.1 = n then (e.1 :: e.2).foldl (fun s a => ins_sorted a s) p.2
        else p.2)).length := by
      simpa [List.enum_length] using hn
    refine ⟨_, List.getElem_mem hklt, ?_, ?_⟩
    · rw [List.getElem_map, List.getElem_enum, if_pos rfl]
      exact mem_foldl_ins _ _ (Or.inl (by simp))
    · intro m hm
      rw [List.getElem_map, List.getElem_enum, if_pos rfl]
      exact mem_foldl_ins _ _ (Or.inl (by simp [hm]))

/-- Once some merge set holds `i` and all of `ns`, that remains true after
any further merge-set steps. -/
theorem foldl_merge_sets_preserves (i : ℕ) (ns : List ℕ) :
    ∀ (entries : List (ℕ × List ℕ)) (st : List (List ℕ) × List ℕ),
      (∃ s ∈ st.1, i ∈ s ∧ ∀ n ∈ ns, n ∈ s) →
      ∃ s ∈ (entries.foldl merge_sets_step st).1, i ∈ s ∧ ∀ n ∈ ns, n ∈ s := by
  intro entries
  induction entries with
  | nil => intro st h; exact h
  | cons e tl ih =>
    intro st h
    obtain ⟨s, hs, hi, hns⟩ := h
    obtain ⟨s2, hs2, hsub⟩ := merge_sets_step_grows st e s hs
    exact ih _ ⟨s2, hs2, hsub hi, fun n hn => hsub (hns n hn)⟩

/-- Claim C4, amended.  What the greedy first-fit construction does
guarantee: for every entry `(i, ns)` of the candidate (`parallel`) map, the
object `i` and all its direct candidate partners `ns` end up together in at
least one merge set.  (Transitive closure is *not* computed, and an object
can belong to two different merge sets, as the counterexample shows.) -/
theorem C4_merge_direct_pairs_grouped (entries : List (ℕ × List ℕ))
    (e : ℕ × List ℕ) (he : e ∈ entries) :
    ∃ s ∈ (build_merge_sets entries).1, e.1 ∈ s ∧ ∀ n ∈ e.2, n ∈ s := by
  unfold build_merge_sets
  suffices h : ∀ (l : List (ℕ × List ℕ)) (st : List (List ℕ) × List ℕ), e ∈ l →
      ∃ s ∈ (l.foldl merge_sets_step st).1, e.1 ∈ s ∧ ∀ n ∈ e.2, n ∈ s by
    exact h entries ([], []) he
  intro l
  induction l with
  | nil => intro st h; simp at h
  | cons hd tl ih =>
    intro st h
    rcases List.mem_cons.mp h with rfl | h
    · exact foldl_merge_sets_preserves e.1 e.2 tl _ (merge_sets_step_estab st e)
    · exact ih _ h

/-- Witness for `C4_merge_direct_pairs_grouped` at the singleton entry
list `[(0, [1])]`. -/
theorem C4_merge_direct_pairs_grouped_witness :
    ∃ s ∈ (build_merge_sets [(0, [1])]).1, 0 ∈ s ∧ ∀ n ∈ [1], n ∈ s :=
  C4_merge_direct_pairs_grouped [(0, [1])] (0, [1]) (by decide)

/-- Claim C4, counterexample.  On the four-box chain record, the candidate
pairs are exactly `0–3`, `1–2` and `2–3` (the `parallel` map), connecting
all four objects into one component; the merge groups the code builds are
`{0,3}` and `{1,2,3}` — not the single connected component — with object 3
a member of *both* groups, and the merger emits 2 output objects instead of
one.  This refutes both halves of the claim at a concrete input. -/
theorem C4_merge_groups_counterexample :
    build_parallel chain_objs (1/1000000) 1 = [(0, [3]), (1, [2]), (2, [3])] ∧
      (build_merge_sets (build_parallel chain_objs (1/1000000) 1)).1
        = [[0, 3], [1, 2, 3]] ∧
      ((3 : ℕ) ∈ [0, 3] ∧ (3 : ℕ) ∈ [1, 2, 3]) ∧
      (merge_polygons chain_objs (1/1000000) 1).length = 2 := by
  decide

/-- Claim C5, counterexample.  On the four-box chain record (with the
default parameters `max_slope_diff = 10⁻⁶`, `max_dist = 1`), one run of the
Polygon Merger produces 2 objects (the unions over the greedy groups
`{0,3}` and `{1,2,3}`, two overlapping rectangles), and a second run merges
those two into 1 object: `merge_polygons (merge_polygons r)` differs from
`merge_polygons r`, refuting idempotence. -/
theorem C5_merge_not_idempotent_counterexample :
    (merge_polygons chain_objs (1/1000000) 1).length = 2 ∧
      (merge_polygons (merge_polygons chain_objs (1/1000000) 1)
        (1/1000000) 1).length = 1 ∧
      merge_polygons (merge_polygons chain_objs (1/1000000) 1) (1/1000000) 1
        ≠ merge_polygons chain_objs (1/1000000) 1 := by
  decide

/-- Claim C5, amended.  The Polygon Merger is a no-op exactly when no
candidate pairs exist: a record whose `parallel` map is empty is returned
unchanged, so such records are fixed points.  (Full idempotence fails: a
second run can merge the first run's outputs further, as the counterexample
shows.) -/
theorem C5_merge_fixed_point_no_candidates (objs : List LocObj)
    (max_slope_diff max_dist : ℚ)
    (h : build_parallel objs max_slope_diff max_dist = []) :
    merge_polygons objs max_slope_diff max_dist = objs := by
  unfold merge_polygons
  rw [h]
  rfl

/-- Witness for `C5_merge_fixed_point_no_candidates`: a single-object
record has no candidate pairs and is unchanged. -/
theorem C5_merge_fixed_point_no_candidates_witness :
    merge_polygons [{ x := 0, y := 0, w := 2, h := 2, label := "a" }]
        (1/1000000) 1
      = [{ x := 0, y := 0, w := 2, h := 2, label := "a" }] :=
  C5_merge_fixed_point_no_candidates
    [{ x := 0, y := 0, w := 2, h := 2, label := "a" }] (1/1000000) 1 (by decide)
